import Mathlib

/-!
Shallow embedding of the sigrok I2C protocol decoder
(`decoders/i2c.py`, class `Decoder`).

The decoder consumes a stream of (SCL, SDA) sample pairs and produces
protocol events (`put` calls).  We embed:

* the mutable decoder fields (`__init__`) as the record `DecState`;
* the edge predicates `is_start_condition`, `is_data_bit`,
  `is_stop_condition`;
* the handlers `found_start`, `found_address_or_data`, `found_stop`;
* the per-sample loop body of `decode` as `decodeStep` and the loop
  itself as `decodeRun`.

Python integers are modelled as `Nat` (for `samplecnt`, `bitcount`,
`databyte`, sample levels) and `Int` (for `wr` and `startsample`, which
take the value `-1`).  `oldscl`/`oldsda` start out as `None`, hence
`Option Nat`.  Emitted `put` calls are modelled by the `Event` type: we
keep the protocol-output packets (command, data byte, ack bit) and the
numeric value of the `ANN_RAW` annotation; the purely textual
`ANN_SHIFTED`/`ANN_SHIFTED_SHORT` annotation strings are formatting of
the same command/value/ack data and are not modelled separately.

In `found_address_or_data`, when `self.state` is neither `FIND_ADDRESS`
nor `FIND_DATA`, or when the four-way command selection chain matches no
branch, Python would raise a `NameError` at the `put` call (the locals
`d`/`cmd` are never assigned).  We model this failure mode with
`Option`: `none` is the raised error.
-/

/-- Protocol commands, the string tags of the source's `protocol` table. -/
inductive Cmd where
  | START
  | START_REPEAT
  | STOP
  | ADDRESS_READ
  | ADDRESS_WRITE
  | DATA_READ
  | DATA_WRITE
deriving DecidableEq, Repr

/-- The ACK/NACK tag attached to an address/data packet. -/
inductive AckBit where
  | ACK
  | NACK
deriving DecidableEq, Repr

/-- One observable output of the decoder: either a protocol packet
`[cmd, data, ack]` sent to `out_proto`, or the numeric value of a raw-hex
annotation (`ANN_RAW`) sent to `out_ann`. -/
inductive Event where
  | proto (cmd : Cmd) (d : Option Nat) (ack : Option AckBit)
  | annRaw (v : Nat)
deriving DecidableEq, Repr

/-- State constant `FIND_START = 0`. -/
def FIND_START : Nat := 0
/-- State constant `FIND_ADDRESS = 1`. -/
def FIND_ADDRESS : Nat := 1
/-- State constant `FIND_DATA = 2`. -/
def FIND_DATA : Nat := 2

/-- The mutable fields of the `Decoder` object (`__init__`). -/
structure DecState where
  samplecnt : Nat
  bitcount : Nat
  databyte : Nat
  wr : Int
  startsample : Int
  is_repeat_start : Nat
  state : Nat
  oldscl : Option Nat
  oldsda : Option Nat
deriving DecidableEq, Repr

/-- The initial decoder state built by `__init__`. -/
def initState : DecState :=
  { samplecnt := 0, bitcount := 0, databyte := 0, wr := -1,
    startsample := -1, is_repeat_start := 0, state := FIND_START,
    oldscl := none, oldsda := none }

/-- `is_start_condition`: SDA falling while SCL is high.  Python's
`self.oldsda == 1` is `False` when `oldsda` is `None`, which the
`Option Nat` comparison reproduces. -/
def is_start_condition (s : DecState) (scl sda : Nat) : Bool :=
  s.oldsda == some 1 && sda == 0 && scl == 1

/-- `is_data_bit`: rising SCL edge. -/
def is_data_bit (s : DecState) (scl _sda : Nat) : Bool :=
  s.oldscl == some 0 && scl == 1

/-- `is_stop_condition`: SDA rising while SCL is high. -/
def is_stop_condition (s : DecState) (scl sda : Nat) : Bool :=
  s.oldsda == some 0 && sda == 1 && scl == 1

/-- `found_start`: emit `START` or `START_REPEAT` (depending on
`is_repeat_start`), reset the byte assembler, set the repeat flag,
clear `wr`, and move to `FIND_ADDRESS`. -/
def found_start (s : DecState) (_scl _sda : Nat) : DecState × List Event :=
  let cmd := if s.is_repeat_start = 1 then Cmd.START_REPEAT else Cmd.START
  ({ s with state := FIND_ADDRESS, bitcount := 0, databyte := 0,
            is_repeat_start := 1, wr := -1 },
   [Event.proto cmd none none])

/-- `found_address_or_data`: accumulate one bit; on the 9th bit emit the
raw annotation and the address/data packet and reset the assembler.
`none` models the `NameError` Python raises when the command-selection
chain assigns neither `d` nor `cmd` (state not `FIND_ADDRESS`/`FIND_DATA`
or `wr` not 0/1). -/
def found_address_or_data (s : DecState) (_scl sda : Nat) :
    Option (DecState × List Event) :=
  let startsample : Int :=
    if s.startsample = -1 then (s.samplecnt : Int) else s.startsample
  let bitcount := s.bitcount + 1
  let databyte := (s.databyte <<< 1) ||| sda
  if bitcount ≠ 9 then
    some ({ s with startsample, bitcount, databyte }, [])
  else
    let evRaw := Event.annRaw databyte
    let databyte' := databyte >>> 1
    let wd : Option (Int × Nat) :=
      if s.state = FIND_ADDRESS then
        some (if databyte' &&& 1 ≠ 0 then 0 else 1, databyte' >>> 1)
      else if s.state = FIND_DATA then
        some (s.wr, databyte')
      else
        none
    match wd with
    | none => none
    | some (wr, d) =>
      let ack_bit := if sda = 1 then AckBit.NACK else AckBit.ACK
      let cmd? : Option Cmd :=
        if s.state = FIND_ADDRESS ∧ wr = 1 then some Cmd.ADDRESS_WRITE
        else if s.state = FIND_ADDRESS ∧ wr = 0 then some Cmd.ADDRESS_READ
        else if s.state = FIND_DATA ∧ wr = 1 then some Cmd.DATA_WRITE
        else if s.state = FIND_DATA ∧ wr = 0 then some Cmd.DATA_READ
        else none
      match cmd? with
      | none => none
      | some cmd =>
        let state' := if s.state = FIND_ADDRESS then FIND_DATA else s.state
        some ({ s with startsample := -1, bitcount := 0, databyte := 0,
                       wr, state := state' },
              [evRaw, Event.proto cmd (some d) (some ack_bit)])

/-- `found_stop`: emit `STOP`, clear the repeat flag and `wr`, and move
to `FIND_START`.  (The assembler fields are *not* reset here, matching
the source.) -/
def found_stop (s : DecState) (_scl _sda : Nat) : DecState × List Event :=
  ({ s with state := FIND_START, is_repeat_start := 0, wr := -1 },
   [Event.proto Cmd.STOP none none])

/-- The state-machine dispatch in the body of `decode` (the
`if self.state == ...` chain), without the first-sample seeding and
without the old-sample bookkeeping. -/
def dispatch (s : DecState) (scl sda : Nat) : Option (DecState × List Event) :=
  if s.state = FIND_START then
    if is_start_condition s scl sda then some (found_start s scl sda)
    else some (s, [])
  else if s.state = FIND_ADDRESS then
    if is_data_bit s scl sda then found_address_or_data s scl sda
    else some (s, [])
  else if s.state = FIND_DATA then
    if is_data_bit s scl sda then found_address_or_data s scl sda
    else if is_start_condition s scl sda then some (found_start s scl sda)
    else if is_stop_condition s scl sda then some (found_stop s scl sda)
    else some (s, [])
  else
    some (s, [])

/-- One iteration of the `decode` loop on sample `(scl, sda)`:
increment `samplecnt`; on the very first sample only seed
`oldscl`/`oldsda`; otherwise dispatch on the state machine and then save
the current levels as the old ones. -/
def decodeStep (s : DecState) (scl sda : Nat) : Option (DecState × List Event) :=
  let s := { s with samplecnt := s.samplecnt + 1 }
  if s.oldscl = none then
    some ({ s with oldscl := some scl, oldsda := some sda }, [])
  else
    match dispatch s scl sda with
    | none => none
    | some (s', evs) =>
      some ({ s' with oldscl := some scl, oldsda := some sda }, evs)

/-- The `decode` loop over a finite sample list, collecting all emitted
events in order.  `none` models an uncaught Python exception. -/
def decodeRun (s : DecState) : List (Nat × Nat) → Option (DecState × List Event)
  | [] => some (s, [])
  | (scl, sda) :: rest =>
    match decodeStep s scl sda with
    | none => none
    | some (s', evs) =>
      match decodeRun s' rest with
      | none => none
      | some (s'', evs') => some (s'', evs ++ evs')

/-! ### Arithmetic helpers -/

/-- Shifting a `Nat` left one bit and ORing in a single bit is the same
as doubling and adding the bit. -/
theorem shiftLeft_one_lor_bit (x b : Nat) (hb : b ≤ 1) :
    (x <<< 1) ||| b = 2 * x + b := by
  have h2 : x <<< 1 = 2 * x := by rw [Nat.shiftLeft_eq]; ring
  rw [h2]
  rcases Nat.le_one_iff_eq_zero_or_eq_one.mp hb with h | h <;> subst h
  · simp
  · apply Nat.eq_of_testBit_eq
    intro i
    cases i with
    | zero =>
      rw [Nat.testBit_lor]
      simp [Nat.testBit_zero, Nat.mul_add_mod, Nat.mul_mod_right]
    | succ n =>
      rw [Nat.testBit_lor, Nat.testBit_succ, Nat.testBit_succ, Nat.testBit_succ]
      have e1 : 2 * x / 2 = x := by omega
      have e2 : (2 * x + 1) / 2 = x := by omega
      have e3 : (1 : Nat) / 2 = 0 := by omega
      rw [e1, e2, e3]
      simp [Nat.zero_testBit]

/-- The low bit of the accumulator after ORing in a bit is that bit. -/
theorem lor_bit_and_one (x b : Nat) (hb : b ≤ 1) :
    ((x <<< 1) ||| b) &&& 1 = b := by
  rw [shiftLeft_one_lor_bit x b hb, Nat.and_one_is_mod]
  omega

/-- Shifting the accumulator right one bit recovers the pre-OR value. -/
theorem lor_bit_shiftRight_one (x b : Nat) (hb : b ≤ 1) :
    ((x <<< 1) ||| b) >>> 1 = x := by
  rw [shiftLeft_one_lor_bit x b hb, Nat.shiftRight_succ, Nat.shiftRight_zero]
  omega

/-- Accumulating one more bit keeps the accumulator below `2 ^ (n + 1)`. -/
theorem lor_bit_lt_two_pow (x b n : Nat) (hx : x < 2 ^ n) (hb : b ≤ 1) :
    (x <<< 1) ||| b < 2 ^ (n + 1) := by
  rw [shiftLeft_one_lor_bit x b hb, pow_succ]
  omega

/-! ### Characterizing `found_address_or_data` -/

/-- Complete case description of `found_address_or_data` on a bit-valued
SDA sample: the accumulate-only case (fewer than 9 bits), the
address-phase completion and the data-phase completion. -/
theorem found_address_or_data_cases (s : DecState) (scl sda : Nat)
    (hsda : sda ≤ 1) :
    (s.bitcount + 1 ≠ 9 →
      found_address_or_data s scl sda =
        some ({ s with
                startsample :=
                  if s.startsample = -1 then (s.samplecnt : Int)
                  else s.startsample,
                bitcount := s.bitcount + 1,
                databyte := (s.databyte <<< 1) ||| sda }, [])) ∧
    (s.bitcount + 1 = 9 → s.state = FIND_ADDRESS →
      found_address_or_data s scl sda =
        some ({ s with
                startsample := -1, bitcount := 0, databyte := 0,
                wr := if (((s.databyte <<< 1) ||| sda) >>> 1) &&& 1 = 1
                      then 0 else 1,
                state := FIND_DATA },
              [Event.annRaw ((s.databyte <<< 1) ||| sda),
               Event.proto
                 (if (((s.databyte <<< 1) ||| sda) >>> 1) &&& 1 = 1 then
                    Cmd.ADDRESS_READ else Cmd.ADDRESS_WRITE)
                 (some ((((s.databyte <<< 1) ||| sda) >>> 1) >>> 1))
                 (some (if ((s.databyte <<< 1) ||| sda) &&& 1 = 1 then
                          AckBit.NACK else AckBit.ACK))])) ∧
    (s.bitcount + 1 = 9 → s.state = FIND_DATA → (s.wr = 0 ∨ s.wr = 1) →
      found_address_or_data s scl sda =
        some ({ s with startsample := -1, bitcount := 0, databyte := 0 },
              [Event.annRaw ((s.databyte <<< 1) ||| sda),
               Event.proto
                 (if s.wr = 1 then Cmd.DATA_WRITE else Cmd.DATA_READ)
                 (some (((s.databyte <<< 1) ||| sda) >>> 1))
                 (some (if ((s.databyte <<< 1) ||| sda) &&& 1 = 1 then
                          AckBit.NACK else AckBit.ACK))])) := by
  have hack := lor_bit_and_one s.databyte sda hsda
  refine ⟨?_, ?_, ?_⟩
  · intro h9
    simp [found_address_or_data, h9]
  · intro h9 hst
    have hne : ¬ (s.bitcount + 1 ≠ 9) := by omega
    by_cases hs1 : sda = 1 <;>
      simp [found_address_or_data, hne, hst, hs1, hack,
            FIND_ADDRESS, FIND_DATA] <;>
      split_ifs <;> first | rfl | omega
  · intro h9 hst hwr
    have hne : ¬ (s.bitcount + 1 ≠ 9) := by omega
    rcases hwr with hw | hw <;> by_cases hs1 : sda = 1 <;>
      simp [found_address_or_data, hne, hst, hw, hs1, hack,
            FIND_ADDRESS, FIND_DATA]

/-! ### Concrete states and inputs used by witnesses -/

/-- An address-phase state with 8 bits already accumulated. -/
def addrPhase8 (db : Nat) : DecState :=
  { samplecnt := 20, bitcount := 8, databyte := db, wr := -1,
    startsample := 2, is_repeat_start := 1, state := FIND_ADDRESS,
    oldscl := some 0, oldsda := some 1 }

/-- A data-phase state with 8 bits already accumulated and direction
`wr`. -/
def dataPhase8 (db : Nat) (w : Int) : DecState :=
  { samplecnt := 40, bitcount := 8, databyte := db, wr := w,
    startsample := 22, is_repeat_start := 1, state := FIND_DATA,
    oldscl := some 0, oldsda := some 1 }

/-- Encode a list of SDA bit values as sample pairs, each bit presented
with SCL low and then clocked in on a rising SCL edge. -/
def bitSamples (bs : List Nat) : List (Nat × Nat) :=
  bs.flatMap fun b => [(0, b), (1, b)]

/-- A seed sample, a start condition, then the nine bits of the group
`raw_byte = 0xA0` (address 0x50, write) with a high (NACK) ack bit. -/
def c4input : List (Nat × Nat) :=
  [(1, 1), (1, 0)] ++ bitSamples [1, 0, 1, 0, 0, 0, 0, 0, 1]

/-- The decoder state after consuming `c4input`. -/
def c4end : DecState :=
  { samplecnt := 20, bitcount := 0, databyte := 0, wr := 1,
    startsample := -1, is_repeat_start := 1, state := FIND_DATA,
    oldscl := some 1, oldsda := some 1 }

/-! ### C1, C2, C4, C7 -/

/-- C1: each accumulate call shifts the accumulator left one bit,
ORs in the sampled SDA bit and increments `bitcount`; calls before the
9th yield no group and emit no event; the call on which `bitcount`
reaches 9 emits the completed group, whose byte value is derived from
`raw_byte = accumulator >>> 1` (a further `>>> 1` in the address phase)
and whose ack is `NACK` iff the accumulator's least-significant bit is
1; the new state has `bitcount` and the accumulator reset to zero. -/
theorem c1_assembler (s : DecState) (scl sda : Nat) (hsda : sda ≤ 1) :
    (s.bitcount + 1 ≠ 9 →
      found_address_or_data s scl sda =
        some ({ s with
                startsample :=
                  if s.startsample = -1 then (s.samplecnt : Int)
                  else s.startsample,
                bitcount := s.bitcount + 1,
                databyte := (s.databyte <<< 1) ||| sda }, [])) ∧
    (s.bitcount + 1 = 9 →
      (s.state = FIND_ADDRESS ∨
        (s.state = FIND_DATA ∧ (s.wr = 0 ∨ s.wr = 1))) →
      found_address_or_data s scl sda =
        some ({ s with
                startsample := -1, bitcount := 0, databyte := 0,
                wr := if s.state = FIND_ADDRESS then
                        (if (((s.databyte <<< 1) ||| sda) >>> 1) &&& 1 = 1
                         then 0 else 1)
                      else s.wr,
                state := if s.state = FIND_ADDRESS then FIND_DATA
                         else s.state },
              [Event.annRaw ((s.databyte <<< 1) ||| sda),
               Event.proto
                 (if s.state = FIND_ADDRESS then
                    (if (((s.databyte <<< 1) ||| sda) >>> 1) &&& 1 = 1 then
                       Cmd.ADDRESS_READ else Cmd.ADDRESS_WRITE)
                  else (if s.wr = 1 then Cmd.DATA_WRITE else Cmd.DATA_READ))
                 (some (if s.state = FIND_ADDRESS then
                          (((s.databyte <<< 1) ||| sda) >>> 1) >>> 1
                        else ((s.databyte <<< 1) ||| sda) >>> 1))
                 (some (if ((s.databyte <<< 1) ||| sda) &&& 1 = 1 then
                          AckBit.NACK else AckBit.ACK))])) := by
  obtain ⟨h1, h2, h3⟩ := found_address_or_data_cases s scl sda hsda
  refine ⟨h1, ?_⟩
  intro h9 hph
  rcases hph with hst | ⟨hst, hwr⟩
  · rw [h2 h9 hst]
    simp [hst]
  · rw [h3 h9 hst hwr]
    simp [hst, FIND_ADDRESS, FIND_DATA]

/-- Witness for C1: completing the 9th bit on accumulator `0xA0` with a
high ack bit. -/
theorem c1_assembler_witness :
    (1 : Nat) ≤ 1 ∧
    (((addrPhase8 0xA0).bitcount + 1 ≠ 9 →
      found_address_or_data (addrPhase8 0xA0) 1 1 =
        some ({ addrPhase8 0xA0 with
                startsample :=
                  if (addrPhase8 0xA0).startsample = -1 then
                    ((addrPhase8 0xA0).samplecnt : Int)
                  else (addrPhase8 0xA0).startsample,
                bitcount := (addrPhase8 0xA0).bitcount + 1,
                databyte := ((addrPhase8 0xA0).databyte <<< 1) ||| 1 }, [])) ∧
    ((addrPhase8 0xA0).bitcount + 1 = 9 →
      ((addrPhase8 0xA0).state = FIND_ADDRESS ∨
        ((addrPhase8 0xA0).state = FIND_DATA ∧
          ((addrPhase8 0xA0).wr = 0 ∨ (addrPhase8 0xA0).wr = 1))) →
      found_address_or_data (addrPhase8 0xA0) 1 1 =
        some ({ addrPhase8 0xA0 with
                startsample := -1, bitcount := 0, databyte := 0,
                wr := if (addrPhase8 0xA0).state = FIND_ADDRESS then
                        (if ((((addrPhase8 0xA0).databyte <<< 1) ||| 1) >>> 1)
                              &&& 1 = 1
                         then 0 else 1)
                      else (addrPhase8 0xA0).wr,
                state := if (addrPhase8 0xA0).state = FIND_ADDRESS then
                           FIND_DATA
                         else (addrPhase8 0xA0).state },
              [Event.annRaw (((addrPhase8 0xA0).databyte <<< 1) ||| 1),
               Event.proto
                 (if (addrPhase8 0xA0).state = FIND_ADDRESS then
                    (if ((((addrPhase8 0xA0).databyte <<< 1) ||| 1) >>> 1)
                          &&& 1 = 1 then
                       Cmd.ADDRESS_READ else Cmd.ADDRESS_WRITE)
                  else (if (addrPhase8 0xA0).wr = 1 then Cmd.DATA_WRITE
                        else Cmd.DATA_READ))
                 (some (if (addrPhase8 0xA0).state = FIND_ADDRESS then
                          ((((addrPhase8 0xA0).databyte <<< 1) ||| 1) >>> 1)
                            >>> 1
                        else (((addrPhase8 0xA0).databyte <<< 1) ||| 1) >>> 1))
                 (some (if (((addrPhase8 0xA0).databyte <<< 1) ||| 1)
                             &&& 1 = 1 then
                          AckBit.NACK else AckBit.ACK))]))) :=
  ⟨by decide, c1_assembler (addrPhase8 0xA0) 1 1 (by decide)⟩

/-- C2: a group completed in the address phase is emitted as
`ADDRESS_READ` when bit 0 of `raw_byte` is 1 and `ADDRESS_WRITE`
otherwise, with value `raw_byte >>> 1` (here `raw_byte` is the
9-bit accumulator shifted right once to drop the ack bit). -/
theorem c2_address_interpretation (s : DecState) (scl sda : Nat)
    (hsda : sda ≤ 1) (h9 : s.bitcount + 1 = 9)
    (hst : s.state = FIND_ADDRESS) :
    found_address_or_data s scl sda =
      some ({ s with
              startsample := -1, bitcount := 0, databyte := 0,
              wr := if (((s.databyte <<< 1) ||| sda) >>> 1) &&& 1 = 1
                    then 0 else 1,
              state := FIND_DATA },
            [Event.annRaw ((s.databyte <<< 1) ||| sda),
             Event.proto
               (if (((s.databyte <<< 1) ||| sda) >>> 1) &&& 1 = 1 then
                  Cmd.ADDRESS_READ else Cmd.ADDRESS_WRITE)
               (some ((((s.databyte <<< 1) ||| sda) >>> 1) >>> 1))
               (some (if ((s.databyte <<< 1) ||| sda) &&& 1 = 1 then
                        AckBit.NACK else AckBit.ACK))]) :=
  (found_address_or_data_cases s scl sda hsda).2.1 h9 hst

/-- Witness for C2: `raw_byte = 0xA1` gives `ADDRESS_READ` with value
`0x50`; `raw_byte = 0xA0` gives `ADDRESS_WRITE` with value `0x50`. -/
theorem c2_address_interpretation_witness :
    ((0 : Nat) ≤ 1 ∧ (addrPhase8 0xA1).bitcount + 1 = 9 ∧
      (addrPhase8 0xA1).state = FIND_ADDRESS ∧
      found_address_or_data (addrPhase8 0xA1) 1 0 =
        some ({ samplecnt := 20, bitcount := 0, databyte := 0, wr := 0,
                startsample := -1, is_repeat_start := 1, state := FIND_DATA,
                oldscl := some 0, oldsda := some 1 },
              [Event.annRaw 0x142,
               Event.proto Cmd.ADDRESS_READ (some 0x50) (some AckBit.ACK)])) ∧
    ((addrPhase8 0xA0).bitcount + 1 = 9 ∧
      (addrPhase8 0xA0).state = FIND_ADDRESS ∧
      found_address_or_data (addrPhase8 0xA0) 1 0 =
        some ({ samplecnt := 20, bitcount := 0, databyte := 0, wr := 1,
                startsample := -1, is_repeat_start := 1, state := FIND_DATA,
                oldscl := some 0, oldsda := some 1 },
              [Event.annRaw 0x140,
               Event.proto Cmd.ADDRESS_WRITE (some 0x50)
                 (some AckBit.ACK)])) :=
  ⟨⟨by decide, by decide, by decide,
    c2_address_interpretation (addrPhase8 0xA1) 1 0 (by decide) (by decide)
      (by decide)⟩,
   ⟨by decide, by decide,
    c2_address_interpretation (addrPhase8 0xA0) 1 0 (by decide) (by decide)
      (by decide)⟩⟩

/-- C4, counterexample: on a start followed by the 9-bit group
`0xA0`+NACK, the completed group has accumulator `0x141` and
`raw_byte = 0x141 >>> 1 = 0xA0`, but the raw-hex annotation event
carries `0x141` — the pre-strip 9-bit accumulator — not `raw_byte`
as the claim states. -/
theorem c4_counterexample :
    decodeRun initState c4input =
      some (c4end,
        [Event.proto Cmd.START none none,
         Event.annRaw 0x141,
         Event.proto Cmd.ADDRESS_WRITE (some 0x50) (some AckBit.NACK)]) ∧
    (0x141 : Nat) ≠ (0x141 : Nat) >>> 1 := by
  exact ⟨by decide, by decide⟩

/-- C4, amended: for every completed 9-bit group the raw-hex
annotation reports the full 9-bit accumulator — ack bit still
included — i.e. the value *before* the ack bit is stripped, not
`raw_byte`. -/
theorem c4_ann_raw_accumulator (s : DecState) (scl sda : Nat) (hsda : sda ≤ 1)
    (h9 : s.bitcount + 1 = 9)
    (hph : s.state = FIND_ADDRESS ∨
      (s.state = FIND_DATA ∧ (s.wr = 0 ∨ s.wr = 1))) :
    ∃ s' rest, found_address_or_data s scl sda =
      some (s', Event.annRaw ((s.databyte <<< 1) ||| sda) :: rest) := by
  obtain ⟨h1, h2, h3⟩ := found_address_or_data_cases s scl sda hsda
  rcases hph with hst | ⟨hst, hwr⟩
  · exact ⟨_, _, h2 h9 hst⟩
  · exact ⟨_, _, h3 h9 hst hwr⟩

/-- Witness for the amended C4: the completed group on accumulator
`0xA0` with a high ack bit is annotated with the 9-bit value. -/
theorem c4_ann_raw_accumulator_witness :
    ((1 : Nat) ≤ 1 ∧ (addrPhase8 0xA0).bitcount + 1 = 9 ∧
      ((addrPhase8 0xA0).state = FIND_ADDRESS ∨
        ((addrPhase8 0xA0).state = FIND_DATA ∧
          ((addrPhase8 0xA0).wr = 0 ∨ (addrPhase8 0xA0).wr = 1)))) ∧
    (∃ s' rest, found_address_or_data (addrPhase8 0xA0) 1 1 =
      some (s',
        Event.annRaw (((addrPhase8 0xA0).databyte <<< 1) ||| 1) :: rest)) :=
  ⟨⟨by decide, by decide, Or.inl (by decide)⟩,
   c4_ann_raw_accumulator (addrPhase8 0xA0) 1 1 (by decide) (by decide)
     (Or.inl (by decide))⟩

/-- C7: in the `FIND_DATA` state the dispatch tests `is_data_bit`
first, then `is_start_condition`, then `is_stop_condition`, and only the
first test that matches is acted on; in particular a sample satisfying
the data-bit test is handled by the byte assembler regardless of whether
the start or stop tests also hold. -/
theorem c7_find_data_priority (s : DecState) (scl sda : Nat)
    (hst : s.state = FIND_DATA) :
    (is_data_bit s scl sda = true →
      dispatch s scl sda = found_address_or_data s scl sda) ∧
    (is_data_bit s scl sda = false → is_start_condition s scl sda = true →
      dispatch s scl sda = some (found_start s scl sda)) ∧
    (is_data_bit s scl sda = false → is_start_condition s scl sda = false →
      is_stop_condition s scl sda = true →
      dispatch s scl sda = some (found_stop s scl sda)) := by
  refine ⟨?_, ?_, ?_⟩ <;> intros <;>
    simp [dispatch, hst, FIND_START, FIND_ADDRESS, FIND_DATA, *]

/-- Witness for C7: a sample on which the data-bit test and the start
test hold simultaneously (SCL rising to high while SDA falls) is
dispatched to the byte assembler. -/
theorem c7_find_data_priority_witness :
    ((dataPhase8 0 1).state = FIND_DATA ∧
      is_data_bit (dataPhase8 0 1) 1 0 = true ∧
      is_start_condition (dataPhase8 0 1) 1 0 = true) ∧
    ((is_data_bit (dataPhase8 0 1) 1 0 = true →
      dispatch (dataPhase8 0 1) 1 0 = found_address_or_data (dataPhase8 0 1) 1 0) ∧
    (is_data_bit (dataPhase8 0 1) 1 0 = false →
      is_start_condition (dataPhase8 0 1) 1 0 = true →
      dispatch (dataPhase8 0 1) 1 0 = some (found_start (dataPhase8 0 1) 1 0)) ∧
    (is_data_bit (dataPhase8 0 1) 1 0 = false →
      is_start_condition (dataPhase8 0 1) 1 0 = false →
      is_stop_condition (dataPhase8 0 1) 1 0 = true →
      dispatch (dataPhase8 0 1) 1 0 = some (found_stop (dataPhase8 0 1) 1 0))) :=
  ⟨⟨by decide, by decide, by decide⟩,
   c7_find_data_priority (dataPhase8 0 1) 1 0 (by decide)⟩

/-! ### Trace views of the emitted event list -/

/-- The protocol command of an event, if it is a protocol packet. -/
def cmdOf : Event → Option Cmd
  | Event.proto c _ _ => some c
  | Event.annRaw _ => none

/-- The sequence of protocol commands in an event list (raw annotations
dropped). -/
def cmds (evs : List Event) : List Cmd := evs.filterMap cmdOf

/-- Is this command a start (plain or repeated)? -/
def isStartCmd : Cmd → Bool
  | Cmd.START => true
  | Cmd.START_REPEAT => true
  | _ => false

/-- Is this command an address byte? -/
def isAddrCmd : Cmd → Bool
  | Cmd.ADDRESS_READ => true
  | Cmd.ADDRESS_WRITE => true
  | _ => false

/-- Is this command a data byte? -/
def isDataCmd : Cmd → Bool
  | Cmd.DATA_READ => true
  | Cmd.DATA_WRITE => true
  | _ => false

/-- Is this command an address or data byte? -/
def isByteCmd (c : Cmd) : Bool := isAddrCmd c || isDataCmd c

/-- Was the previous command (if any) a start? -/
def startPrev : Option Cmd → Bool
  | some c => isStartCmd c
  | none => false

/-- Left scan checking the address-after-start discipline: the carried
`Option Cmd` is the most recent command, and the flag records that so
far a command is an address byte exactly when its predecessor was a
start. -/
def chainStep : Option Cmd × Bool → Cmd → Option Cmd × Bool :=
  fun pr c => (some c, pr.2 && (isAddrCmd c == startPrev pr.1))

/-- Scan a command list with `chainStep`. -/
def chainScan (l : List Cmd) : Option Cmd × Bool := l.foldl chainStep (none, true)

/-- The most recent command of a command list (via `chainScan`). -/
def lastCmd (l : List Cmd) : Option Cmd := (chainScan l).1

/-- A command list satisfies the address-after-start discipline: a
command is an address byte iff the command immediately before it is a
start. -/
def addrChainOK (l : List Cmd) : Bool := (chainScan l).2

/-- Left scan checking repeated-start bookkeeping: the carried flag is
"a start has been seen since the last stop", and the checked bit
records that every start so far was `START` when the flag was down and
`START_REPEAT` when it was up. -/
def repStep : Bool × Bool → Cmd → Bool × Bool :=
  fun fr c =>
    match c with
    | Cmd.START => (true, fr.2 && (fr.1 == false))
    | Cmd.START_REPEAT => (true, fr.2 && (fr.1 == true))
    | Cmd.STOP => (false, fr.2)
    | _ => fr

/-- Scan a command list with `repStep`. -/
def repScan (l : List Cmd) : Bool × Bool := l.foldl repStep (false, true)

/-- Has a start been emitted since the last stop (or since the
beginning, if no stop was emitted)? -/
def startSinceStop (l : List Cmd) : Bool := (repScan l).1

/-- Every start so far was marked repeated exactly when a start had
already been seen since the last stop. -/
def repeatedOK (l : List Cmd) : Bool := (repScan l).2

/-- Left scan checking direction inheritance: the carried value is the
direction of the most recent address byte (`some true` = write), and
the checked bit records that every data byte so far carried exactly
that direction. -/
def dirStep : Option Bool × Bool → Cmd → Option Bool × Bool :=
  fun wr c =>
    match c with
    | Cmd.ADDRESS_WRITE => (some true, wr.2)
    | Cmd.ADDRESS_READ => (some false, wr.2)
    | Cmd.DATA_WRITE => (wr.1, wr.2 && (wr.1 == some true))
    | Cmd.DATA_READ => (wr.1, wr.2 && (wr.1 == some false))
    | _ => wr

/-- Scan a command list with `dirStep`. -/
def dirScan (l : List Cmd) : Option Bool × Bool := l.foldl dirStep (none, true)

/-- The direction established by the most recent address byte. -/
def lastAddrDir (l : List Cmd) : Option Bool := (dirScan l).1

/-- Every data byte inherits the direction of the most recent address
byte. -/
def dirInheritOK (l : List Cmd) : Bool := (dirScan l).2

/-- Value-range check: an address packet carries a 7-bit value, a data
packet an 8-bit value. -/
def valOK : Event → Bool
  | Event.proto c d _ =>
    match d with
    | some v =>
      if isAddrCmd c then decide (v < 128)
      else if isDataCmd c then decide (v < 256)
      else true
    | none => !(isByteCmd c)
  | Event.annRaw _ => true

/-- Is this event an address/data packet or a raw-byte annotation, i.e.
output produced only when a 9-bit group completes? -/
def isByteEvent : Event → Bool
  | Event.proto c _ _ => isByteCmd c
  | Event.annRaw _ => true

/-! ### Reachability invariant -/

/-- Which protocol command may most recently have been emitted in each
state of the machine. -/
def stateLast (st : Nat) (p : Option Cmd) : Prop :=
  (st = FIND_START → p = none ∨ p = some Cmd.STOP) ∧
  (st = FIND_ADDRESS → p = some Cmd.START ∨ p = some Cmd.START_REPEAT) ∧
  (st = FIND_DATA → p = some Cmd.ADDRESS_READ ∨ p = some Cmd.ADDRESS_WRITE ∨
    p = some Cmd.DATA_READ ∨ p = some Cmd.DATA_WRITE)

/-- The reachability invariant tying a decoder state to the trace of
events emitted so far. -/
structure Reach (s : DecState) (evs : List Event) : Prop where
  hst : s.state = FIND_START ∨ s.state = FIND_ADDRESS ∨ s.state = FIND_DATA
  hbc : s.bitcount ≤ 8
  hdb : s.databyte < 2 ^ s.bitcount
  hrep : s.is_repeat_start = if startSinceStop (cmds evs) then 1 else 0
  hrepok : repeatedOK (cmds evs) = true
  hchain : addrChainOK (cmds evs) = true
  hlast : stateLast s.state (lastCmd (cmds evs))
  hdirok : dirInheritOK (cmds evs) = true
  hwr : s.state = FIND_DATA →
    (s.wr = 1 ∧ lastAddrDir (cmds evs) = some true) ∨
    (s.wr = 0 ∧ lastAddrDir (cmds evs) = some false)
  hval : ∀ e ∈ evs, valOK e = true

/-- `cmds` distributes over append. -/
theorem cmds_append (evs l : List Event) :
    cmds (evs ++ l) = cmds evs ++ cmds l := by
  simp [cmds]

/-- Unfold `chainScan` over a trailing command. -/
theorem chainScan_snoc (l : List Cmd) (c : Cmd) :
    chainScan (l ++ [c]) = chainStep (chainScan l) c := by
  simp [chainScan]

/-- Unfold `repScan` over a trailing command. -/
theorem repScan_snoc (l : List Cmd) (c : Cmd) :
    repScan (l ++ [c]) = repStep (repScan l) c := by
  simp [repScan]

/-- Unfold `dirScan` over a trailing command. -/
theorem dirScan_snoc (l : List Cmd) (c : Cmd) :
    dirScan (l ++ [c]) = dirStep (dirScan l) c := by
  simp [dirScan]

theorem chainScan_snoc_eq (l : List Cmd) (c : Cmd) :
    chainScan (l ++ [c]) =
      (some c, addrChainOK l && (isAddrCmd c == startPrev (lastCmd l))) := by
  rw [chainScan_snoc]; rfl

theorem repScan_snoc_start (l : List Cmd) :
    repScan (l ++ [Cmd.START]) =
      (true, repeatedOK l && (startSinceStop l == false)) := by
  rw [repScan_snoc]; rfl

theorem repScan_snoc_start_repeat (l : List Cmd) :
    repScan (l ++ [Cmd.START_REPEAT]) =
      (true, repeatedOK l && (startSinceStop l == true)) := by
  rw [repScan_snoc]; rfl

theorem repScan_snoc_stop (l : List Cmd) :
    repScan (l ++ [Cmd.STOP]) = (false, repeatedOK l) := by
  rw [repScan_snoc]; rfl

theorem repScan_snoc_byte (l : List Cmd) (c : Cmd) (h : isByteCmd c = true) :
    repScan (l ++ [c]) = repScan l := by
  rw [repScan_snoc]
  cases c <;> simp_all [isByteCmd, isAddrCmd, isDataCmd, repStep]

theorem dirScan_snoc_addr_w (l : List Cmd) :
    dirScan (l ++ [Cmd.ADDRESS_WRITE]) = (some true, dirInheritOK l) := by
  rw [dirScan_snoc]; rfl

theorem dirScan_snoc_addr_r (l : List Cmd) :
    dirScan (l ++ [Cmd.ADDRESS_READ]) = (some false, dirInheritOK l) := by
  rw [dirScan_snoc]; rfl

theorem dirScan_snoc_data_w (l : List Cmd) :
    dirScan (l ++ [Cmd.DATA_WRITE]) =
      (lastAddrDir l, dirInheritOK l && (lastAddrDir l == some true)) := by
  rw [dirScan_snoc]; rfl

theorem dirScan_snoc_data_r (l : List Cmd) :
    dirScan (l ++ [Cmd.DATA_READ]) =
      (lastAddrDir l, dirInheritOK l && (lastAddrDir l == some false)) := by
  rw [dirScan_snoc]; rfl

theorem dirScan_snoc_other (l : List Cmd) (c : Cmd)
    (h : isByteCmd c = false) : dirScan (l ++ [c]) = dirScan l := by
  rw [dirScan_snoc]
  cases c <;> simp_all [isByteCmd, isAddrCmd, isDataCmd, dirStep]

theorem startSinceStop_snoc_start (l : List Cmd) :
    startSinceStop (l ++ [Cmd.START]) = true := by
  simp [startSinceStop, repScan_snoc_start]

theorem startSinceStop_snoc_start_repeat (l : List Cmd) :
    startSinceStop (l ++ [Cmd.START_REPEAT]) = true := by
  simp [startSinceStop, repScan_snoc_start_repeat]

theorem startSinceStop_snoc_stop (l : List Cmd) :
    startSinceStop (l ++ [Cmd.STOP]) = false := by
  simp [startSinceStop, repScan_snoc_stop]

theorem startSinceStop_snoc_byte (l : List Cmd) (c : Cmd)
    (h : isByteCmd c = true) :
    startSinceStop (l ++ [c]) = startSinceStop l := by
  simp [startSinceStop, repScan_snoc_byte l c h]

theorem repeatedOK_snoc_start (l : List Cmd) :
    repeatedOK (l ++ [Cmd.START]) =
      (repeatedOK l && (startSinceStop l == false)) := by
  simp [repeatedOK, repScan_snoc_start, startSinceStop]

theorem repeatedOK_snoc_start_repeat (l : List Cmd) :
    repeatedOK (l ++ [Cmd.START_REPEAT]) =
      (repeatedOK l && (startSinceStop l == true)) := by
  simp [repeatedOK, repScan_snoc_start_repeat, startSinceStop]

theorem repeatedOK_snoc_stop (l : List Cmd) :
    repeatedOK (l ++ [Cmd.STOP]) = repeatedOK l := by
  simp [repeatedOK, repScan_snoc_stop]

theorem repeatedOK_snoc_byte (l : List Cmd) (c : Cmd)
    (h : isByteCmd c = true) :
    repeatedOK (l ++ [c]) = repeatedOK l := by
  simp [repeatedOK, repScan_snoc_byte l c h]

theorem lastCmd_snoc (l : List Cmd) (c : Cmd) :
    lastCmd (l ++ [c]) = some c := by
  simp [lastCmd, chainScan_snoc_eq]

theorem addrChainOK_snoc (l : List Cmd) (c : Cmd) :
    addrChainOK (l ++ [c]) =
      (addrChainOK l && (isAddrCmd c == startPrev (lastCmd l))) := by
  simp [addrChainOK, chainScan_snoc_eq]

theorem lastAddrDir_snoc_addr_w (l : List Cmd) :
    lastAddrDir (l ++ [Cmd.ADDRESS_WRITE]) = some true := by
  simp [lastAddrDir, dirScan_snoc_addr_w]

theorem lastAddrDir_snoc_addr_r (l : List Cmd) :
    lastAddrDir (l ++ [Cmd.ADDRESS_READ]) = some false := by
  simp [lastAddrDir, dirScan_snoc_addr_r]

theorem lastAddrDir_snoc_data_w (l : List Cmd) :
    lastAddrDir (l ++ [Cmd.DATA_WRITE]) = lastAddrDir l := by
  simp [lastAddrDir, dirScan_snoc_data_w]

theorem lastAddrDir_snoc_data_r (l : List Cmd) :
    lastAddrDir (l ++ [Cmd.DATA_READ]) = lastAddrDir l := by
  simp [lastAddrDir, dirScan_snoc_data_r]

theorem lastAddrDir_snoc_other (l : List Cmd) (c : Cmd)
    (h : isByteCmd c = false) :
    lastAddrDir (l ++ [c]) = lastAddrDir l := by
  simp [lastAddrDir, dirScan_snoc_other l c h]

theorem dirInheritOK_snoc_addr_w (l : List Cmd) :
    dirInheritOK (l ++ [Cmd.ADDRESS_WRITE]) = dirInheritOK l := by
  simp [dirInheritOK, dirScan_snoc_addr_w]

theorem dirInheritOK_snoc_addr_r (l : List Cmd) :
    dirInheritOK (l ++ [Cmd.ADDRESS_READ]) = dirInheritOK l := by
  simp [dirInheritOK, dirScan_snoc_addr_r]

theorem dirInheritOK_snoc_data_w (l : List Cmd) :
    dirInheritOK (l ++ [Cmd.DATA_WRITE]) =
      (dirInheritOK l && (lastAddrDir l == some true)) := by
  simp [dirInheritOK, dirScan_snoc_data_w, lastAddrDir]

theorem dirInheritOK_snoc_data_r (l : List Cmd) :
    dirInheritOK (l ++ [Cmd.DATA_READ]) =
      (dirInheritOK l && (lastAddrDir l == some false)) := by
  simp [dirInheritOK, dirScan_snoc_data_r, lastAddrDir]

theorem dirInheritOK_snoc_other (l : List Cmd) (c : Cmd)
    (h : isByteCmd c = false) :
    dirInheritOK (l ++ [c]) = dirInheritOK l := by
  simp [dirInheritOK, dirScan_snoc_other l c h]

/-- `found_start` preserves the reachability invariant, provided the
most recent command was not itself a start. -/
theorem reach_found_start (s : DecState) (evs : List Event) (scl sda : Nat)
    (h : Reach s evs) (hlp : startPrev (lastCmd (cmds evs)) = false) :
    Reach (found_start s scl sda).1 (evs ++ (found_start s scl sda).2) := by
  obtain ⟨h1, h2, h3, h4, h5, h6, h7, h8, h9, h10⟩ := h
  by_cases hflag : s.is_repeat_start = 1
  · have hfl : startSinceStop (cmds evs) = true := by
      cases hss : startSinceStop (cmds evs) with
      | false => rw [hss] at h4; simp at h4; omega
      | true => rfl
    have hev : (found_start s scl sda).2 = [Event.proto Cmd.START_REPEAT none none] := by
      simp [found_start, hflag]
    have hc : cmds (evs ++ (found_start s scl sda).2) =
        cmds evs ++ [Cmd.START_REPEAT] := by
      rw [hev, cmds_append]; rfl
    refine ⟨?_, ?_, ?_, ?_, ?_, ?_, ?_, ?_, ?_, ?_⟩
    · exact Or.inr (Or.inl rfl)
    · exact Nat.zero_le 8
    · exact Nat.one_pos
    · rw [hc, startSinceStop_snoc_start_repeat]; rfl
    · rw [hc, repeatedOK_snoc_start_repeat, h5, hfl]; rfl
    · rw [hc, addrChainOK_snoc, h6, hlp]; rfl
    · rw [hc, lastCmd_snoc]
      exact ⟨fun hh => by simp [found_start, FIND_ADDRESS, FIND_START] at hh,
             fun _ => Or.inr rfl,
             fun hh => by simp [found_start, FIND_ADDRESS, FIND_DATA] at hh⟩
    · rw [hc, dirInheritOK_snoc_other (cmds evs) Cmd.START_REPEAT rfl]
      exact h8
    · intro hh
      exact absurd hh (by simp [found_start, FIND_ADDRESS, FIND_DATA])
    · intro e he
      rw [hev] at he
      rcases List.mem_append.mp he with h' | h'
      · exact h10 e h'
      · simp at h'; subst h'; rfl
  · have hfl : startSinceStop (cmds evs) = false := by
      cases hss : startSinceStop (cmds evs) with
      | true => rw [hss] at h4; simp at h4; omega
      | false => rfl
    have hev : (found_start s scl sda).2 = [Event.proto Cmd.START none none] := by
      simp [found_start, hflag]
    have hc : cmds (evs ++ (found_start s scl sda).2) =
        cmds evs ++ [Cmd.START] := by
      rw [hev, cmds_append]; rfl
    refine ⟨?_, ?_, ?_, ?_, ?_, ?_, ?_, ?_, ?_, ?_⟩
    · exact Or.inr (Or.inl rfl)
    · exact Nat.zero_le 8
    · exact Nat.one_pos
    · rw [hc, startSinceStop_snoc_start]; rfl
    · rw [hc, repeatedOK_snoc_start, h5, hfl]; rfl
    · rw [hc, addrChainOK_snoc, h6, hlp]; rfl
    · rw [hc, lastCmd_snoc]
      exact ⟨fun hh => by simp [found_start, FIND_ADDRESS, FIND_START] at hh,
             fun _ => Or.inl rfl,
             fun hh => by simp [found_start, FIND_ADDRESS, FIND_DATA] at hh⟩
    · rw [hc, dirInheritOK_snoc_other (cmds evs) Cmd.START rfl]
      exact h8
    · intro hh
      exact absurd hh (by simp [found_start, FIND_ADDRESS, FIND_DATA])
    · intro e he
      rw [hev] at he
      rcases List.mem_append.mp he with h' | h'
      · exact h10 e h'
      · simp at h'; subst h'; rfl

/-- `found_stop` (reached only from `FIND_DATA`) preserves the
reachability invariant. -/
theorem reach_found_stop (s : DecState) (evs : List Event) (scl sda : Nat)
    (h : Reach s evs) (hst2 : s.state = FIND_DATA) :
    Reach (found_stop s scl sda).1 (evs ++ (found_stop s scl sda).2) := by
  obtain ⟨h1, h2, h3, h4, h5, h6, h7, h8, h9, h10⟩ := h
  have hev : (found_stop s scl sda).2 =
      [Event.proto Cmd.STOP none none] := rfl
  have hc : cmds (evs ++ (found_stop s scl sda).2) =
      cmds evs ++ [Cmd.STOP] := by
    rw [hev, cmds_append]; rfl
  refine ⟨?_, ?_, ?_, ?_, ?_, ?_, ?_, ?_, ?_, ?_⟩
  · exact Or.inl rfl
  · exact h2
  · exact h3
  · rw [hc, startSinceStop_snoc_stop]; rfl
  · rw [hc, repeatedOK_snoc_stop]; exact h5
  · rw [hc, addrChainOK_snoc, h6]
    rcases h7.2.2 hst2 with hp | hp | hp | hp <;> rw [hp] <;> rfl
  · rw [hc, lastCmd_snoc]
    exact ⟨fun _ => Or.inr rfl,
           fun hh => by simp [found_stop, FIND_START, FIND_ADDRESS] at hh,
           fun hh => by simp [found_stop, FIND_START, FIND_DATA] at hh⟩
  · rw [hc, dirInheritOK_snoc_other (cmds evs) Cmd.STOP rfl]
    exact h8
  · intro hh
    exact absurd hh (by simp [found_stop, FIND_START, FIND_DATA])
  · intro e he
    rw [hev] at he
    rcases List.mem_append.mp he with h' | h'
    · exact h10 e h'
    · simp at h'; subst h'; rfl

/-- Accumulating a bit without completing a group preserves the
reachability invariant. -/
theorem reach_acc_incomplete (s : DecState) (evs : List Event) (sda : Nat)
    (hsda : sda ≤ 1) (h : Reach s evs) (h9 : s.bitcount + 1 ≠ 9) :
    Reach { s with
            startsample :=
              if s.startsample = -1 then (s.samplecnt : Int)
              else s.startsample,
            bitcount := s.bitcount + 1,
            databyte := (s.databyte <<< 1) ||| sda } evs := by
  obtain ⟨h1, h2, h3, h4, h5, h6, h7, h8, h9', h10⟩ := h
  refine ⟨h1, ?_, ?_, h4, h5, h6, h7, h8, h9', h10⟩
  · show s.bitcount + 1 ≤ 8
    omega
  · show (s.databyte <<< 1) ||| sda < 2 ^ (s.bitcount + 1)
    exact lor_bit_lt_two_pow _ _ _ h3 hsda

/-- After the ninth bit the accumulator is a 9-bit value. -/
theorem acc_lt_512 (s : DecState) (sda : Nat) (hsda : sda ≤ 1)
    (h3 : s.databyte < 2 ^ s.bitcount) (h9 : s.bitcount + 1 = 9) :
    (s.databyte <<< 1) ||| sda < 512 := by
  have hb8 : s.bitcount = 8 := by omega
  have := lor_bit_lt_two_pow s.databyte sda s.bitcount h3 hsda
  rw [hb8] at this
  simpa using this

/-- Completing a group in the address phase preserves the reachability
invariant. -/
theorem reach_complete_addr (s : DecState) (evs : List Event) (sda : Nat)
    (hsda : sda ≤ 1) (h : Reach s evs)
    (h9 : s.bitcount + 1 = 9) (hst : s.state = FIND_ADDRESS) :
    Reach { s with
            startsample := -1, bitcount := 0, databyte := 0,
            wr := if (((s.databyte <<< 1) ||| sda) >>> 1) &&& 1 = 1
                  then 0 else 1,
            state := FIND_DATA }
      (evs ++ [Event.annRaw ((s.databyte <<< 1) ||| sda),
               Event.proto
                 (if (((s.databyte <<< 1) ||| sda) >>> 1) &&& 1 = 1 then
                    Cmd.ADDRESS_READ else Cmd.ADDRESS_WRITE)
                 (some ((((s.databyte <<< 1) ||| sda) >>> 1) >>> 1))
                 (some (if ((s.databyte <<< 1) ||| sda) &&& 1 = 1 then
                          AckBit.NACK else AckBit.ACK))]) := by
  obtain ⟨h1, h2, h3, h4, h5, h6, h7, h8, h9', h10⟩ := h
  have hacc : (s.databyte <<< 1) ||| sda < 512 := acc_lt_512 s sda hsda h3 h9
  have hdlt : (((s.databyte <<< 1) ||| sda) >>> 1) >>> 1 < 128 := by
    rw [Nat.shiftRight_one, Nat.shiftRight_one]
    omega
  have hsp : startPrev (lastCmd (cmds evs)) = true := by
    rcases h7.2.1 hst with hp | hp <;> rw [hp] <;> rfl
  by_cases hb : (((s.databyte <<< 1) ||| sda) >>> 1) &&& 1 = 1
  · rw [if_pos hb, if_pos hb]
    have hc : cmds (evs ++ [Event.annRaw ((s.databyte <<< 1) ||| sda),
        Event.proto Cmd.ADDRESS_READ
          (some ((((s.databyte <<< 1) ||| sda) >>> 1) >>> 1))
          (some (if ((s.databyte <<< 1) ||| sda) &&& 1 = 1 then
                   AckBit.NACK else AckBit.ACK))]) =
        cmds evs ++ [Cmd.ADDRESS_READ] := by
      rw [cmds_append]; rfl
    refine ⟨?_, ?_, ?_, ?_, ?_, ?_, ?_, ?_, ?_, ?_⟩
    · exact Or.inr (Or.inr rfl)
    · exact Nat.zero_le 8
    · exact Nat.one_pos
    · rw [hc, startSinceStop_snoc_byte (cmds evs) Cmd.ADDRESS_READ rfl]
      exact h4
    · rw [hc, repeatedOK_snoc_byte (cmds evs) Cmd.ADDRESS_READ rfl]
      exact h5
    · rw [hc, addrChainOK_snoc, h6, hsp]; rfl
    · rw [hc, lastCmd_snoc]
      exact ⟨fun hh => by simp [FIND_DATA, FIND_START] at hh,
             fun hh => by simp [FIND_DATA, FIND_ADDRESS] at hh,
             fun _ => Or.inl rfl⟩
    · rw [hc, dirInheritOK_snoc_addr_r]
      exact h8
    · intro _
      right
      exact ⟨rfl, by rw [hc, lastAddrDir_snoc_addr_r]⟩
    · intro e he
      rcases List.mem_append.mp he with h' | h'
      · exact h10 e h'
      · simp at h'
        rcases h' with h' | h' <;> subst h'
        · rfl
        · simp [valOK, isAddrCmd, hdlt]
  · rw [if_neg hb, if_neg hb]
    have hc : cmds (evs ++ [Event.annRaw ((s.databyte <<< 1) ||| sda),
        Event.proto Cmd.ADDRESS_WRITE
          (some ((((s.databyte <<< 1) ||| sda) >>> 1) >>> 1))
          (some (if ((s.databyte <<< 1) ||| sda) &&& 1 = 1 then
                   AckBit.NACK else AckBit.ACK))]) =
        cmds evs ++ [Cmd.ADDRESS_WRITE] := by
      rw [cmds_append]; rfl
    refine ⟨?_, ?_, ?_, ?_, ?_, ?_, ?_, ?_, ?_, ?_⟩
    · exact Or.inr (Or.inr rfl)
    · exact Nat.zero_le 8
    · exact Nat.one_pos
    · rw [hc, startSinceStop_snoc_byte (cmds evs) Cmd.ADDRESS_WRITE rfl]
      exact h4
    · rw [hc, repeatedOK_snoc_byte (cmds evs) Cmd.ADDRESS_WRITE rfl]
      exact h5
    · rw [hc, addrChainOK_snoc, h6, hsp]; rfl
    · rw [hc, lastCmd_snoc]
      exact ⟨fun hh => by simp [FIND_DATA, FIND_START] at hh,
             fun hh => by simp [FIND_DATA, FIND_ADDRESS] at hh,
             fun _ => Or.inr (Or.inl rfl)⟩
    · rw [hc, dirInheritOK_snoc_addr_w]
      exact h8
    · intro _
      left
      exact ⟨rfl, by rw [hc, lastAddrDir_snoc_addr_w]⟩
    · intro e he
      rcases List.mem_append.mp he with h' | h'
      · exact h10 e h'
      · simp at h'
        rcases h' with h' | h' <;> subst h'
        · rfl
        · simp [valOK, isAddrCmd, hdlt]

/-- Completing a group in the data phase preserves the reachability
invariant. -/
theorem reach_complete_data (s : DecState) (evs : List Event) (sda : Nat)
    (hsda : sda ≤ 1) (h : Reach s evs)
    (h9 : s.bitcount + 1 = 9) (hst : s.state = FIND_DATA) :
    Reach { s with startsample := -1, bitcount := 0, databyte := 0 }
      (evs ++ [Event.annRaw ((s.databyte <<< 1) ||| sda),
               Event.proto
                 (if s.wr = 1 then Cmd.DATA_WRITE else Cmd.DATA_READ)
                 (some (((s.databyte <<< 1) ||| sda) >>> 1))
                 (some (if ((s.databyte <<< 1) ||| sda) &&& 1 = 1 then
                          AckBit.NACK else AckBit.ACK))]) := by
  obtain ⟨h1, h2, h3, h4, h5, h6, h7, h8, h9', h10⟩ := h
  have hacc : (s.databyte <<< 1) ||| sda < 512 := acc_lt_512 s sda hsda h3 h9
  have hdlt : ((s.databyte <<< 1) ||| sda) >>> 1 < 256 := by
    rw [Nat.shiftRight_one]
    omega
  have hsp : startPrev (lastCmd (cmds evs)) = false := by
    rcases h7.2.2 hst with hp | hp | hp | hp <;> rw [hp] <;> rfl
  rcases h9' hst with ⟨hw1, hw2⟩ | ⟨hw1, hw2⟩
  · rw [if_pos hw1]
    have hc : cmds (evs ++ [Event.annRaw ((s.databyte <<< 1) ||| sda),
        Event.proto Cmd.DATA_WRITE
          (some (((s.databyte <<< 1) ||| sda) >>> 1))
          (some (if ((s.databyte <<< 1) ||| sda) &&& 1 = 1 then
                   AckBit.NACK else AckBit.ACK))]) =
        cmds evs ++ [Cmd.DATA_WRITE] := by
      rw [cmds_append]; rfl
    refine ⟨?_, ?_, ?_, ?_, ?_, ?_, ?_, ?_, ?_, ?_⟩
    · exact Or.inr (Or.inr hst)
    · exact Nat.zero_le 8
    · exact Nat.one_pos
    · rw [hc, startSinceStop_snoc_byte (cmds evs) Cmd.DATA_WRITE rfl]
      exact h4
    · rw [hc, repeatedOK_snoc_byte (cmds evs) Cmd.DATA_WRITE rfl]
      exact h5
    · rw [hc, addrChainOK_snoc, h6, hsp]; rfl
    · rw [hc, lastCmd_snoc]
      refine ⟨fun hh => ?_, fun hh => ?_, fun _ => Or.inr (Or.inr (Or.inr rfl))⟩
      · rw [hst] at hh; simp [FIND_DATA, FIND_START] at hh
      · rw [hst] at hh; simp [FIND_DATA, FIND_ADDRESS] at hh
    · rw [hc, dirInheritOK_snoc_data_w, h8, hw2]; rfl
    · intro _
      left
      refine ⟨hw1, ?_⟩
      rw [hc, lastAddrDir_snoc_data_w]
      exact hw2
    · intro e he
      rcases List.mem_append.mp he with h' | h'
      · exact h10 e h'
      · simp at h'
        rcases h' with h' | h' <;> subst h'
        · rfl
        · simp [valOK, isAddrCmd, isDataCmd, hdlt]
  · rw [if_neg (by omega : ¬ s.wr = 1)]
    have hc : cmds (evs ++ [Event.annRaw ((s.databyte <<< 1) ||| sda),
        Event.proto Cmd.DATA_READ
          (some (((s.databyte <<< 1) ||| sda) >>> 1))
          (some (if ((s.databyte <<< 1) ||| sda) &&& 1 = 1 then
                   AckBit.NACK else AckBit.ACK))]) =
        cmds evs ++ [Cmd.DATA_READ] := by
      rw [cmds_append]; rfl
    refine ⟨?_, ?_, ?_, ?_, ?_, ?_, ?_, ?_, ?_, ?_⟩
    · exact Or.inr (Or.inr hst)
    · exact Nat.zero_le 8
    · exact Nat.one_pos
    · rw [hc, startSinceStop_snoc_byte (cmds evs) Cmd.DATA_READ rfl]
      exact h4
    · rw [hc, repeatedOK_snoc_byte (cmds evs) Cmd.DATA_READ rfl]
      exact h5
    · rw [hc, addrChainOK_snoc, h6, hsp]; rfl
    · rw [hc, lastCmd_snoc]
      refine ⟨fun hh => ?_, fun hh => ?_, fun _ => Or.inr (Or.inr (Or.inl rfl))⟩
      · rw [hst] at hh; simp [FIND_DATA, FIND_START] at hh
      · rw [hst] at hh; simp [FIND_DATA, FIND_ADDRESS] at hh
    · rw [hc, dirInheritOK_snoc_data_r, h8, hw2]; rfl
    · intro _
      right
      refine ⟨hw1, ?_⟩
      rw [hc, lastAddrDir_snoc_data_r]
      exact hw2
    · intro e he
      rcases List.mem_append.mp he with h' | h'
      · exact h10 e h'
      · simp at h'
        rcases h' with h' | h' <;> subst h'
        · rfl
        · simp [valOK, isAddrCmd, isDataCmd, hdlt]

/-- The per-sample state-machine dispatch never raises and preserves
the reachability invariant. -/
theorem reach_dispatch (s : DecState) (evs : List Event) (scl sda : Nat)
    (hsda : sda ≤ 1) (h : Reach s evs) :
    ∃ s' new, dispatch s scl sda = some (s', new) ∧ Reach s' (evs ++ new) := by
  obtain ⟨hc1, hc2, hc3⟩ := found_address_or_data_cases s scl sda hsda
  rcases h.hst with hst | hst | hst
  · by_cases hs : is_start_condition s scl sda
    · refine ⟨(found_start s scl sda).1, (found_start s scl sda).2, ?_, ?_⟩
      · simp [dispatch, hst, hs]
      · apply reach_found_start s evs scl sda h
        rcases h.hlast.1 hst with hp | hp <;> rw [hp] <;> rfl
    · refine ⟨s, [], ?_, ?_⟩
      · simp [dispatch, hst, hs]
      · rw [List.append_nil]; exact h
  · by_cases hd : is_data_bit s scl sda
    · have hdp : dispatch s scl sda = found_address_or_data s scl sda := by
        simp [dispatch, hst, hd, FIND_START, FIND_ADDRESS]
      by_cases h9 : s.bitcount + 1 = 9
      · exact ⟨_, _, by rw [hdp, hc2 h9 hst],
          reach_complete_addr s evs sda hsda h h9 hst⟩
      · refine ⟨{ s with
            startsample :=
              if s.startsample = -1 then (s.samplecnt : Int)
              else s.startsample,
            bitcount := s.bitcount + 1,
            databyte := (s.databyte <<< 1) ||| sda }, [], ?_, ?_⟩
        · rw [hdp, hc1 h9]
        · rw [List.append_nil]
          exact reach_acc_incomplete s evs sda hsda h h9
    · refine ⟨s, [], ?_, ?_⟩
      · simp [dispatch, hst, hd, FIND_START, FIND_ADDRESS]
      · rw [List.append_nil]; exact h
  · have hnst : ¬ (s.state = FIND_START) := by
      rw [hst]; simp [FIND_START, FIND_DATA]
    have hnsa : ¬ (s.state = FIND_ADDRESS) := by
      rw [hst]; simp [FIND_ADDRESS, FIND_DATA]
    by_cases hd : is_data_bit s scl sda
    · have hdp : dispatch s scl sda = found_address_or_data s scl sda := by
        simp [dispatch, hst, hd, hnst, hnsa, FIND_START, FIND_ADDRESS,
          FIND_DATA]
      by_cases h9 : s.bitcount + 1 = 9
      · have hwr : s.wr = 0 ∨ s.wr = 1 := by
          rcases h.hwr hst with ⟨hw, _⟩ | ⟨hw, _⟩ <;> omega
        exact ⟨_, _, by rw [hdp, hc3 h9 hst hwr],
          reach_complete_data s evs sda hsda h h9 hst⟩
      · refine ⟨{ s with
            startsample :=
              if s.startsample = -1 then (s.samplecnt : Int)
              else s.startsample,
            bitcount := s.bitcount + 1,
            databyte := (s.databyte <<< 1) ||| sda }, [], ?_, ?_⟩
        · rw [hdp, hc1 h9]
        · rw [List.append_nil]
          exact reach_acc_incomplete s evs sda hsda h h9
    · by_cases hs : is_start_condition s scl sda
      · refine ⟨(found_start s scl sda).1, (found_start s scl sda).2, ?_, ?_⟩
        · simp [dispatch, hst, hd, hs, hnst, hnsa, FIND_START, FIND_ADDRESS,
            FIND_DATA]
        · apply reach_found_start s evs scl sda h
          rcases h.hlast.2.2 hst with hp | hp | hp | hp <;> rw [hp] <;> rfl
      · by_cases hp : is_stop_condition s scl sda
        · refine ⟨(found_stop s scl sda).1, (found_stop s scl sda).2, ?_, ?_⟩
          · simp [dispatch, hst, hd, hs, hp, hnst, hnsa, FIND_START,
              FIND_ADDRESS, FIND_DATA]
          · exact reach_found_stop s evs scl sda h hst
        · refine ⟨s, [], ?_, ?_⟩
          · simp [dispatch, hst, hd, hs, hp, hnst, hnsa, FIND_START,
              FIND_ADDRESS, FIND_DATA]
          · rw [List.append_nil]; exact h

/-- A full `decode`-loop iteration never raises and preserves the
reachability invariant. -/
theorem reach_decodeStep (s : DecState) (evs : List Event) (scl sda : Nat)
    (hsda : sda ≤ 1) (h : Reach s evs) :
    ∃ s' new, decodeStep s scl sda = some (s', new) ∧ Reach s' (evs ++ new) := by
  rcases hsc : s.oldscl with _ | v
  · refine ⟨{ s with samplecnt := s.samplecnt + 1, oldscl := some scl,
                     oldsda := some sda }, [], ?_, ?_⟩
    · simp [decodeStep, hsc]
    · rw [List.append_nil]
      exact ⟨h.hst, h.hbc, h.hdb, h.hrep, h.hrepok, h.hchain, h.hlast,
             h.hdirok, h.hwr, h.hval⟩
  · have hbump : Reach { s with samplecnt := s.samplecnt + 1 } evs :=
      ⟨h.hst, h.hbc, h.hdb, h.hrep, h.hrepok, h.hchain, h.hlast,
       h.hdirok, h.hwr, h.hval⟩
    obtain ⟨s', new, hdp, hr⟩ :=
      reach_dispatch { s with samplecnt := s.samplecnt + 1 } evs scl sda hsda hbump
    refine ⟨{ s' with oldscl := some scl, oldsda := some sda }, new, ?_, ?_⟩
    · rw [hsc] at hdp
      simp [decodeStep, hsc, hdp]
    · exact ⟨hr.hst, hr.hbc, hr.hdb, hr.hrep, hr.hrepok, hr.hchain, hr.hlast,
             hr.hdirok, hr.hwr, hr.hval⟩

/-- Running the decoder over any bit-valued sample list never raises
and preserves the reachability invariant. -/
theorem reach_decodeRun (ss : List (Nat × Nat)) :
    ∀ (s : DecState) (evs : List Event),
      (∀ p ∈ ss, p.2 ≤ 1) → Reach s evs →
      ∃ s' new, decodeRun s ss = some (s', new) ∧ Reach s' (evs ++ new) := by
  induction ss with
  | nil =>
    intro s evs _ h
    exact ⟨s, [], rfl, by rw [List.append_nil]; exact h⟩
  | cons p rest ih =>
    obtain ⟨scl, sda⟩ := p
    intro s evs hb h
    obtain ⟨s1, n1, hstep, h1⟩ :=
      reach_decodeStep s evs scl sda (hb (scl, sda) (by simp)) h
    obtain ⟨s2, n2, hrun, h2⟩ :=
      ih s1 (evs ++ n1) (fun q hq => hb q (by simp [hq])) h1
    refine ⟨s2, n1 ++ n2, ?_, ?_⟩
    · simp [decodeRun, hstep, hrun]
    · rw [← List.append_assoc]; exact h2

/-- The freshly constructed decoder satisfies the reachability
invariant with an empty trace. -/
theorem reach_init : Reach initState [] := by
  refine ⟨Or.inl rfl, ?_, ?_, rfl, rfl, rfl, ?_, rfl, ?_, ?_⟩
  · exact Nat.zero_le 8
  · exact Nat.one_pos
  · exact ⟨fun _ => Or.inl rfl,
           fun hh => by simp [initState, FIND_START, FIND_ADDRESS] at hh,
           fun hh => by simp [initState, FIND_START, FIND_DATA] at hh⟩
  · intro hh
    exact absurd hh (by simp [initState, FIND_START, FIND_DATA])
  · intro e he
    simp at he

/-- Any run of the decoder from its initial state on bit-valued samples
succeeds and reaches an invariant-satisfying state and trace. -/
theorem reach_run_init (ss : List (Nat × Nat)) (hb : ∀ p ∈ ss, p.2 ≤ 1) :
    ∃ s evs, decodeRun initState ss = some (s, evs) ∧ Reach s evs := by
  obtain ⟨s, evs, hrun, h⟩ := reach_decodeRun ss initState [] hb reach_init
  exact ⟨s, evs, hrun, by simpa using h⟩

/-- If `found_address_or_data` leaves a nonzero `bitcount`, it emitted
nothing: byte packets and raw annotations appear only when a group
completes (and then `bitcount` is reset to 0). -/
theorem fad_no_byte_when_partial (s : DecState) (scl sda : Nat)
    (s' : DecState) (evs' : List Event)
    (h : found_address_or_data s scl sda = some (s', evs'))
    (hb : 1 ≤ s'.bitcount) : evs' = [] := by
  by_cases h9 : s.bitcount + 1 ≠ 9
  · simp [found_address_or_data, h9] at h
    exact h.2
  · push_neg at h9
    exfalso
    by_cases hA : s.state = FIND_ADDRESS
    · rcases Nat.mod_two_eq_zero_or_one (((s.databyte <<< 1) ||| sda) >>> 1)
        with hm | hm <;>
      simp [found_address_or_data, h9, hA, hm, FIND_START, FIND_ADDRESS,
        FIND_DATA] at h <;>
        (obtain ⟨h1, -⟩ := h; rw [← h1] at hb; simp at hb)
    · by_cases hD : s.state = FIND_DATA
      · by_cases hw1 : s.wr = 1
        · simp [found_address_or_data, h9, hA, hD, hw1, FIND_START,
            FIND_ADDRESS, FIND_DATA] at h
          obtain ⟨h1, -⟩ := h
          rw [← h1] at hb
          simp at hb
        · by_cases hw0 : s.wr = 0
          · simp [found_address_or_data, h9, hA, hD, hw1, hw0, FIND_START,
              FIND_ADDRESS, FIND_DATA] at h
            obtain ⟨h1, -⟩ := h
            rw [← h1] at hb
            simp at hb
          · simp [found_address_or_data, h9, hA, hD, hw1, hw0, FIND_START,
              FIND_ADDRESS, FIND_DATA] at h
      · have hA' : ¬ s.state = 1 := by simpa [FIND_ADDRESS] using hA
        have hD' : ¬ s.state = 2 := by simpa [FIND_DATA] using hD
        simp [found_address_or_data, h9, hA', hD', FIND_ADDRESS,
          FIND_DATA] at h

/-- The events of one dispatch are nothing, a single start, a single
stop, or the output of the byte assembler. -/
theorem dispatch_shape (s : DecState) (scl sda : Nat) (s' : DecState)
    (evs' : List Event) (h : dispatch s scl sda = some (s', evs')) :
    evs' = [] ∨ evs' = [Event.proto Cmd.START none none] ∨
    evs' = [Event.proto Cmd.START_REPEAT none none] ∨
    evs' = [Event.proto Cmd.STOP none none] ∨
    found_address_or_data s scl sda = some (s', evs') := by
  unfold dispatch at h
  split_ifs at h
  all_goals first
    | exact Or.inr (Or.inr (Or.inr (Or.inr h)))
    | (injection h with hh
       have h2 := congrArg Prod.snd hh
       subst h2
       first
       | exact Or.inl rfl
       | exact Or.inr (Or.inr (Or.inr (Or.inl rfl)))
       | (by_cases hflag : s.is_repeat_start = 1
          · exact Or.inr (Or.inr (Or.inl (by simp [found_start, hflag])))
          · exact Or.inr (Or.inl (by simp [found_start, hflag]))))

/-- `c4input` followed by a sample that triggers a repeated start. -/
def c3input : List (Nat × Nat) := c4input ++ [(1, 0)]

/-- An address-phase state with 3 bits accumulated. -/
def acc3 : DecState :=
  { samplecnt := 20, bitcount := 3, databyte := 5, wr := -1,
    startsample := 2, is_repeat_start := 1, state := FIND_ADDRESS,
    oldscl := some 0, oldsda := some 1 }

/-- The state after feeding one more data bit to `acc3`. -/
def acc4 : DecState :=
  { samplecnt := 21, bitcount := 4, databyte := 11, wr := -1,
    startsample := 2, is_repeat_start := 1, state := FIND_ADDRESS,
    oldscl := some 1, oldsda := some 1 }

/-- C3: in every emitted event sequence, a start event is marked
`START_REPEAT` exactly when a prior start has been emitted since the
last stop (or since the beginning of the session if no stop occurred),
and `START` otherwise; `repeatedOK` scans the command trace checking
precisely this at every start event. -/
theorem c3_repeated_start_flag (ss : List (Nat × Nat))
    (hb : ∀ p ∈ ss, p.2 ≤ 1) :
    ∃ s evs, decodeRun initState ss = some (s, evs) ∧
      repeatedOK (cmds evs) = true := by
  obtain ⟨s, evs, hrun, h⟩ := reach_run_init ss hb
  exact ⟨s, evs, hrun, h.hrepok⟩

/-- Witness for C3: a start, one address byte, then a repeated start. -/
theorem c3_repeated_start_flag_witness :
    (∀ p ∈ c3input, p.2 ≤ 1) ∧
    (∃ s evs, decodeRun initState c3input = some (s, evs) ∧
      repeatedOK (cmds evs) = true) :=
  ⟨by decide, c3_repeated_start_flag c3input (by decide)⟩

/-- C5: in every emitted event sequence, a protocol command is an
address byte exactly when the immediately preceding command is a start
(plain or repeated); hence exactly one address byte follows every start
before any data byte, start or stop, and address bytes appear nowhere
else.  `addrChainOK` scans the command trace checking this adjacency at
every position (the first command has no predecessor and so is never an
address byte). -/
theorem c5_address_follows_start (ss : List (Nat × Nat))
    (hb : ∀ p ∈ ss, p.2 ≤ 1) :
    ∃ s evs, decodeRun initState ss = some (s, evs) ∧
      addrChainOK (cmds evs) = true := by
  obtain ⟨s, evs, hrun, h⟩ := reach_run_init ss hb
  exact ⟨s, evs, hrun, h.hchain⟩

/-- Witness for C5 on a concrete session. -/
theorem c5_address_follows_start_witness :
    (∀ p ∈ c3input, p.2 ≤ 1) ∧
    (∃ s evs, decodeRun initState c3input = some (s, evs) ∧
      addrChainOK (cmds evs) = true) :=
  ⟨by decide, c5_address_follows_start c3input (by decide)⟩

/-- C6: every emitted data byte carries exactly the direction
(`DATA_WRITE` vs `DATA_READ`) established by the most recent address
byte; `dirInheritOK` scans the command trace carrying the direction of
the most recent address byte and checks each data byte against it, so
the direction is inherited, never re-derived from the data byte's own
bits. -/
theorem c6_data_direction_inherited (ss : List (Nat × Nat))
    (hb : ∀ p ∈ ss, p.2 ≤ 1) :
    ∃ s evs, decodeRun initState ss = some (s, evs) ∧
      dirInheritOK (cmds evs) = true := by
  obtain ⟨s, evs, hrun, h⟩ := reach_run_init ss hb
  exact ⟨s, evs, hrun, h.hdirok⟩

/-- Witness for C6 on a concrete session. -/
theorem c6_data_direction_inherited_witness :
    (∀ p ∈ c4input, p.2 ≤ 1) ∧
    (∃ s evs, decodeRun initState c4input = some (s, evs) ∧
      dirInheritOK (cmds evs) = true) :=
  ⟨by decide, c6_data_direction_inherited c4input (by decide)⟩

/-- C8: every emitted address packet carries a value in [0,127] and
every emitted data packet a value in [0,255], for every bit-valued
input sample sequence. -/
theorem c8_value_ranges (ss : List (Nat × Nat))
    (hb : ∀ p ∈ ss, p.2 ≤ 1) :
    ∃ s evs, decodeRun initState ss = some (s, evs) ∧
      ∀ e ∈ evs, valOK e = true := by
  obtain ⟨s, evs, hrun, h⟩ := reach_run_init ss hb
  exact ⟨s, evs, hrun, h.hval⟩

/-- Witness for C8 on a concrete session. -/
theorem c8_value_ranges_witness :
    (∀ p ∈ c4input, p.2 ≤ 1) ∧
    (∃ s evs, decodeRun initState c4input = some (s, evs) ∧
      ∀ e ∈ evs, valOK e = true) :=
  ⟨by decide, c8_value_ranges c4input (by decide)⟩

/-- C9: decoding any bit-valued sample sequence terminates normally
with no error (the run is always `some`), and any step that leaves a
partially assembled group (`bitcount ≥ 1` afterwards, as on the final
step of a stream that ends mid-assembly) emitted no address/data packet
and no raw-byte annotation — so an input that ends with a partial group
produces no event for it. -/
theorem c9_truncation_safe :
    (∀ ss : List (Nat × Nat), (∀ p ∈ ss, p.2 ≤ 1) →
      ∃ out, decodeRun initState ss = some out) ∧
    (∀ (s s' : DecState) (scl sda : Nat) (evs' : List Event),
      decodeStep s scl sda = some (s', evs') → 1 ≤ s'.bitcount →
      ∀ e ∈ evs', isByteEvent e = false) := by
  constructor
  · intro ss hb
    obtain ⟨s, evs, hrun, -⟩ := reach_run_init ss hb
    exact ⟨(s, evs), hrun⟩
  · intro s s' scl sda evs' h hbc e he
    rcases hsc : s.oldscl with _ | v
    · simp [decodeStep, hsc] at h
      obtain ⟨h1, h2⟩ := h
      subst h2
      simp at he
    · rcases hdp : dispatch { s with samplecnt := s.samplecnt + 1 } scl sda
        with _ | ⟨s2, new⟩
      · rw [hsc] at hdp
        simp [decodeStep, hsc, hdp] at h
      · rw [hsc] at hdp
        simp [decodeStep, hsc, hdp] at h
        obtain ⟨h1, h2⟩ := h
        subst h2
        subst h1
        rw [← hsc] at hdp
        rcases dispatch_shape _ _ _ _ _ hdp with hsh | hsh | hsh | hsh | hsh
        · subst hsh; simp at he
        · subst hsh; simp at he; subst he; rfl
        · subst hsh; simp at he; subst he; rfl
        · subst hsh; simp at he; subst he; rfl
        · have hnil : new = [] := by
            apply fad_no_byte_when_partial _ _ _ _ _ hsh
            exact hbc
          subst hnil
          simp at he

/-- Witness for C9: a concrete run and a concrete mid-assembly step. -/
theorem c9_truncation_safe_witness :
    ((∀ p ∈ c3input, p.2 ≤ 1) ∧
      (∃ out, decodeRun initState c3input = some out)) ∧
    ((decodeStep acc3 1 1 = some (acc4, []) ∧ 1 ≤ acc4.bitcount) ∧
      (∀ e ∈ ([] : List Event), isByteEvent e = false)) :=
  ⟨⟨by decide, c9_truncation_safe.1 c3input (by decide)⟩,
   ⟨⟨by decide, by decide⟩,
    c9_truncation_safe.2 acc3 acc4 1 1 [] (by decide) (by decide)⟩⟩

/-- C10: in every reachable decoder state the state field is one of
the three legal states, `wr` is 0 or 1 whenever the state is
`FIND_DATA`, and consequently the next step never hits the `none`
branches that model the unguarded command-selection chain's no-match
fallthrough (a Python `NameError`): the fallthrough is unreachable. -/
theorem c10_no_fallthrough (ss : List (Nat × Nat))
    (hb : ∀ p ∈ ss, p.2 ≤ 1) :
    ∃ s evs, decodeRun initState ss = some (s, evs) ∧
      (s.state = FIND_START ∨ s.state = FIND_ADDRESS ∨
        s.state = FIND_DATA) ∧
      (s.state = FIND_DATA → s.wr = 0 ∨ s.wr = 1) ∧
      (∀ scl sda, sda ≤ 1 → decodeStep s scl sda ≠ none) := by
  obtain ⟨s, evs, hrun, h⟩ := reach_run_init ss hb
  refine ⟨s, evs, hrun, h.hst, ?_, ?_⟩
  · intro h2
    rcases h.hwr h2 with ⟨hw, -⟩ | ⟨hw, -⟩
    · right; exact hw
    · left; exact hw
  · intro scl sda hsda
    obtain ⟨s', new, heq, -⟩ := reach_decodeStep s evs scl sda hsda h
    rw [heq]
    simp

/-- Witness for C10 on a concrete session. -/
theorem c10_no_fallthrough_witness :
    (∀ p ∈ c4input, p.2 ≤ 1) ∧
    (∃ s evs, decodeRun initState c4input = some (s, evs) ∧
      (s.state = FIND_START ∨ s.state = FIND_ADDRESS ∨
        s.state = FIND_DATA) ∧
      (s.state = FIND_DATA → s.wr = 0 ∨ s.wr = 1) ∧
      (∀ scl sda, sda ≤ 1 → decodeStep s scl sda ≠ none)) :=
  ⟨by decide, c10_no_fallthrough c4input (by decide)⟩
